import Mathlib

/-!
Verification development for the stepRNA overhang-classification pipeline
(`stepRNA-script_oldV2.py`).

The script aligns reads against a reference with bowtie2, then walks the
resulting BAM records: each record whose CIGAR string passes an
insertion/deletion filter is classified into left/right overhang lengths and
types, five frequency tables are updated, the record is written to a per-type
partition, and finally the overhang table is normalized to percentages and
rendered as a terminal histogram.

We shallow-embed the per-record loop (lines 114-138), the aligner command
construction (lines 94-107), the `make_unique` handling (lines 84-86) and the
histogram normalization (lines 149-167).  Python dictionaries
(`defaultdict(lambda:0)`) are embedded as a key list plus a count function;
the external classifier, writer and aligner are parameters of the embedding,
except where a claim is about their own behaviour, in which case they are
modelled from the specification (their code lives in the `stepRNA` package
modules, which are not part of the sources here).
-/

namespace StepRNA

/-- Embedding of a Python `defaultdict(lambda:0)`: the list of keys that have
been materialized, and the count stored for each key (0 for absent keys, as
the default factory produces). -/
structure Dict (K : Type) where
  keys : List K
  counts : K → Nat

/-- A fresh `defaultdict(lambda:0)`: no keys, every count 0. -/
def Dict.empty {K : Type} : Dict K := ⟨[], fun _ => 0⟩

/-- Embeds `d[k] += 1`: the count at `k` grows by one and `k` becomes a key. -/
def Dict.increment {K : Type} [DecidableEq K] (d : Dict K) (k : K) : Dict K :=
  ⟨if k ∈ d.keys then d.keys else k :: d.keys,
   fun m => if m = k then d.counts m + 1 else d.counts m⟩

/-- Embeds `d[k] = v`. -/
def Dict.set {K : Type} [DecidableEq K] (d : Dict K) (k : K) (v : Nat) : Dict K :=
  ⟨if k ∈ d.keys then d.keys else k :: d.keys,
   fun m => if m = k then v else d.counts m⟩

/-- One BAM alignment record, with the attributes the loop reads:
`line.cigarstring` (None for unmapped records), `line.query_length`,
`line.reference_name`, and `line.get_reference_positions(full_length=True)`
(one entry per query base; `none` embeds Python `None` for an unaligned base). -/
structure Record where
  cigarstring : Option String
  query_length : Nat
  reference_name : String
  ref_pos : List (Option Nat)

/-- Python's `c in s` membership test of a character in a string. -/
def pyIn (c : Char) (s : String) : Bool := s.data.contains c

/-- Embeds the filter on line 125, `('D' or 'I') not in line.cigarstring`.
Python evaluates the expression `('D' or 'I')` to `'D'` (the first truthy
operand), so the test only checks that the CIGAR string contains no `'D'`:
a CIGAR containing `'I'` but no `'D'` passes the filter. -/
def cigarFilter (cig : String) : Bool := ! pyIn 'D' cig

/-- The filter the specification asks for: exclude a record whose CIGAR
contains an insertion or a deletion operation.  Stated for comparison with
`cigarFilter`, the check the code performs. -/
def cigarFilterSpec (cig : String) : Bool := ! (pyIn 'D' cig || pyIn 'I' cig)

/-- The aggregated state of the counting loop (lines 115-138): the five
`defaultdict` frequency tables plus the list of per-type partition writes
performed by `write_to_bam`, recorded by their composite type key. -/
structure State where
  right_dic : Dict Nat
  left_dic : Dict Nat
  type_dic : Dict String
  read_len_dic : Dict Nat
  refs_read_dic : Dict String
  writes : List String

/-- The state just before the record loop (lines 115-121): all tables empty
except `refs_read_dic`, which is seeded with `refs_read_dic[name] = 0` for
every `name` in `bam_in.references`. -/
def initState (references : List String) : State :=
  { right_dic := Dict.empty
    left_dic := Dict.empty
    type_dic := Dict.empty
    read_len_dic := Dict.empty
    refs_read_dic := references.foldl (fun d name => d.set name 0) Dict.empty
    writes := [] }

/-- The classification phase of the loop body for one record: the CIGAR
null-check (line 124), the insertion/deletion filter (line 125), then the
`right_overhang` and `left_overhang` calls (lines 128-129), in that order.
`RO` and `LO` embed those calls; a `none` result embeds an exception, which
the `try`/`except` on lines 127 and 137-138 turns into a skip.  Returns the
classification `(right, right_type, left, left_type)` when everything
succeeded. -/
def classifyRecord (RO LO : Record → Option (Nat × String)) (rec : Record) :
    Option (Nat × String × Nat × String) :=
  match rec.cigarstring with
  | none => none
  | some cig =>
    if cigarFilter cig then
      match RO rec with
      | none => none
      | some (right, right_type) =>
        match LO rec with
        | none => none
        | some (left, left_type) => some (right, right_type, left, left_type)
    else none

/-- The full loop body for one record (lines 123-138).  When classification
succeeds, the five `+= 1` increments on lines 131-135 are applied, and then
`write_to_bam` (line 136, embedded by `W`; `none` embeds an exception) appends
the record to the partition keyed `left_type + '_' + right_type`.  The
increments precede the write, so a failing write leaves them applied: the
`except` clause only skips to the next record. -/
def processRecord (RO LO : Record → Option (Nat × String))
    (W : Record → String → String → Option Unit) (st : State) (rec : Record) : State :=
  match classifyRecord RO LO rec with
  | none => st
  | some (right, right_type, left, left_type) =>
    let st1 : State :=
      { st with
        right_dic := st.right_dic.increment right
        left_dic := st.left_dic.increment left
        type_dic := st.type_dic.increment (left_type ++ "_" ++ right_type)
        read_len_dic := st.read_len_dic.increment rec.query_length
        refs_read_dic := st.refs_read_dic.increment rec.reference_name }
    match W rec left_type right_type with
    | none => st1
    | some _ => { st1 with writes := st1.writes ++ [left_type ++ "_" ++ right_type] }

/-- The whole record loop `for line in bam_in:` (lines 123-138). -/
def processAll (RO LO : Record → Option (Nat × String))
    (W : Record → String → String → Option Unit) (st : State)
    (records : List Record) : State :=
  records.foldl (processRecord RO LO W) st

/-! ## Aligner invocation (lines 84-109) -/

/-- Embeds lines 84-86.  When `args.make_unique` is set, the script runs
`reads = make_unique(reads)` and then `reads = make_unique(ref)`: the second
assignment overwrites the first, so the variable `reads` ends up holding the
uniquified reference file.  `mk` embeds the external `make_unique` function
(a path-to-path transformation from `stepRNA.processing`). -/
def readsAfterUnique (make_unique_flag : Bool) (reads ref : String)
    (mk : String → String) : String :=
  if make_unique_flag then
    let reads := mk reads
    let reads := mk ref
    reads
  else reads

/-- Embeds lines 99-102: `min_score = 3 * min_score` when the `-m` option
holds a value other than its default `-1`, else `min_score = 3 * minimum`
where `minimum` is the shortest read length. -/
def effective_min_score (min_score minimum : Int) : Int :=
  if min_score ≠ -1 then 3 * min_score else 3 * minimum

/-- Embeds the bowtie2 command list built on line 107, with `maximum` the
longest read length and `min_score` the already-scaled minimum score. -/
def bowtie2Command (ref_base reads sam_file : String) (maximum min_score : Int) :
    List String :=
  ["bowtie2", "-x", ref_base, "-U", reads, "-f", "-N", "0", "-L", "10",
   "--no-1mm-upfront", "--nofw", "--local", "--ma", "3",
   "--mp", toString maximum ++ "," ++ toString maximum,
   "--score-min", "L," ++ toString min_score ++ ",0",
   "-S", sam_file]

/-- Embeds lines 109-138 as one function: `bowtie = run(command)` produces a
completed process whose return code is bound to `bowtie` and never read again;
the pipeline then opens the alignment file (whose records are the `records`
input) and runs the counting loop.  The return code is a parameter so that its
(non-)influence can be stated. -/
def pipelineAfterAlign (bowtie_returncode : Int) (references : List String)
    (records : List Record) (RO LO : Record → Option (Nat × String))
    (W : Record → String → String → Option Unit) : State :=
  let _bowtie := bowtie_returncode
  processAll RO LO W (initState references) records

/-! ## Histogram stage (lines 149-174) -/

/-- Embeds the normalization loop on lines 165-167: each count is replaced by
`100 * count / total`.  Python division by zero raises `ZeroDivisionError`,
embedded as `none`; the loop body runs once per key, so an empty key list
performs no division at all. -/
def normalize : List Nat → Nat → Option (List ℚ)
  | [], _ => some []
  | d :: rest, tot =>
    if tot = 0 then none
    else
      match normalize rest tot with
      | none => none
      | some qs => some ((100 * (d : ℚ)) / (tot : ℚ) :: qs)

/-- Embeds lines 149-167 applied to the data rows read back from
`<prefix>_overhang.csv`: each row is `(key, left count, right count)`; the
totals are accumulated while reading and both columns are then normalized to
percentages.  Returns `none` when either normalization divides by zero. -/
def histStage (rows : List (String × Nat × Nat)) : Option (List ℚ × List ℚ) :=
  let left_dens := rows.map (fun r => r.2.1)
  let right_dens := rows.map (fun r => r.2.2)
  let left_tot := left_dens.sum
  let right_tot := right_dens.sum
  match normalize left_dens left_tot with
  | none => none
  | some ld =>
    match normalize right_dens right_tot with
    | none => none
    | some rd => some (ld, rd)

/-- Modelled from the spec: `print_hist` lives in `stepRNA.output`, which is
not among the sources.  The spec says the reporter renders one proportional
bar per distinct key, labeled with the key, and must degrade to an explicit
no-data output on an empty table instead of failing. -/
def print_hist (dens : List ℚ) (keys : List String) : List String :=
  if keys.isEmpty then ["No data"]
  else (keys.zip dens).map
    (fun p => p.1 ++ ": " ++ String.mk (List.replicate p.2.floor.toNat '*'))

/-! ## Overhang classification, modelled from the spec (section 4.1)

`left_overhang` and `right_overhang` live in `stepRNA.commands`, which is not
among the sources; the definitions below are modelled from the spec. -/

/-- The number of leading query bases whose reference position is `None`. -/
def leadingUnmapped : List (Option Nat) → Nat
  | [] => 0
  | none :: rest => leadingUnmapped rest + 1
  | some _ :: _ => 0

/-- The number of query bases that have a reference position (the matched
length of the alignment). -/
def matched_length (ref_pos : List (Option Nat)) : Nat :=
  (ref_pos.filter Option.isSome).length

/-- Modelled from the spec: `left_overhang` (from `stepRNA.commands`) is not
among the sources.  Per spec section 4.1, the left overhang length is the
count of leading query bases with no corresponding reference position; a
malformed array (entirely unmapped, which subsumes zero length) makes the
computation fail.  The spec leaves the exact type-label boundary rule open, so
the label only distinguishes a flush end from an overhanging one. -/
def left_overhang (ref_pos : List (Option Nat)) : Option (Nat × String) :=
  if ref_pos.all Option.isNone then none
  else
    let n := leadingUnmapped ref_pos
    some (n, if n = 0 then "flush" else "overhang")

/-- Modelled from the spec: `right_overhang` (from `stepRNA.commands`) is not
among the sources.  Symmetric to `left_overhang`, scanning from the last query
base backward: the right overhang length is the count of trailing query bases
with no corresponding reference position. -/
def right_overhang (ref_pos : List (Option Nat)) : Option (Nat × String) :=
  if ref_pos.all Option.isNone then none
  else
    let n := leadingUnmapped ref_pos.reverse
    some (n, if n = 0 then "flush" else "overhang")

/-! ## Concrete fixtures used by witnesses and counterexamples -/

/-- A right-overhang classifier that always returns length 2, type `"R3"`. -/
def RO0 : Record → Option (Nat × String) := fun _ => some (2, "R3")

/-- A left-overhang classifier that always returns length 3, type `"L5"`. -/
def LO0 : Record → Option (Nat × String) := fun _ => some (3, "L5")

/-- A right-overhang classifier that always raises (returns `none`). -/
def ROfail : Record → Option (Nat × String) := fun _ => none

/-- A partition writer that always succeeds. -/
def Wok : Record → String → String → Option Unit := fun _ _ _ => some ()

/-- A partition writer that always raises (returns `none`). -/
def Wfail : Record → String → String → Option Unit := fun _ _ _ => none

/-- A record with a plain 20-base match CIGAR. -/
def rec0 : Record := ⟨some "20M", 20, "ref1", []⟩

/-- A record whose CIGAR contains an insertion operation and no deletion. -/
def recI : Record := ⟨some "2I18M", 20, "ref1", []⟩

/-! ## Claims -/

/-- C1: the claim says every record whose CIGAR contains an `'I'` or `'D'`
operation is excluded from overhang classification.  The code's filter,
`('D' or 'I') not in line.cigarstring`, only tests for `'D'`: a record with
CIGAR `"2I18M"` (an insertion, no deletion) passes the filter, is counted in
the frequency tables and is written to a partition.  The spec itself flags the
check as unreliable, so the claim states the intent and the code is the slip;
this theorem evaluates the code at the failing input. -/
theorem C1_insertion_record_not_excluded :
    pyIn 'I' "2I18M" = true ∧
    cigarFilter "2I18M" = true ∧
    (processRecord RO0 LO0 Wok (initState ["ref1"]) recI).read_len_dic.counts 20 = 1 ∧
    (processRecord RO0 LO0 Wok (initState ["ref1"]) recI).writes = ["L5_R3"] ∧
    cigarFilterSpec "2I18M" = false := by
  refine ⟨by decide, by decide, ?_, ?_, by decide⟩ <;> rfl

/-- C2: a record for which classification succeeds (`classifyRecord` returns
the four components; this packages the non-null CIGAR check, the filter, and
the `right_overhang`/`left_overhang` calls all returning without exception)
and whose partition write succeeds contributes exactly one increment to each
of the five tables — at its right length, left length, composite type
`left_type + '_' + right_type`, query length and reference name, leaving every
other key's count unchanged — and appends exactly one partition write, keyed
by the composite type. -/
theorem C2_classified_record_increments_each_table_once
    (RO LO : Record → Option (Nat × String))
    (W : Record → String → String → Option Unit) (st : State) (rec : Record)
    (right left : Nat) (right_type left_type : String)
    (hc : classifyRecord RO LO rec = some (right, right_type, left, left_type))
    (hw : W rec left_type right_type = some ()) :
    (processRecord RO LO W st rec).right_dic.counts right
        = st.right_dic.counts right + 1 ∧
    (∀ k, k ≠ right → (processRecord RO LO W st rec).right_dic.counts k
        = st.right_dic.counts k) ∧
    (processRecord RO LO W st rec).left_dic.counts left
        = st.left_dic.counts left + 1 ∧
    (∀ k, k ≠ left → (processRecord RO LO W st rec).left_dic.counts k
        = st.left_dic.counts k) ∧
    (processRecord RO LO W st rec).type_dic.counts (left_type ++ "_" ++ right_type)
        = st.type_dic.counts (left_type ++ "_" ++ right_type) + 1 ∧
    (∀ k, k ≠ left_type ++ "_" ++ right_type →
        (processRecord RO LO W st rec).type_dic.counts k = st.type_dic.counts k) ∧
    (processRecord RO LO W st rec).read_len_dic.counts rec.query_length
        = st.read_len_dic.counts rec.query_length + 1 ∧
    (∀ k, k ≠ rec.query_length → (processRecord RO LO W st rec).read_len_dic.counts k
        = st.read_len_dic.counts k) ∧
    (processRecord RO LO W st rec).refs_read_dic.counts rec.reference_name
        = st.refs_read_dic.counts rec.reference_name + 1 ∧
    (∀ k, k ≠ rec.reference_name → (processRecord RO LO W st rec).refs_read_dic.counts k
        = st.refs_read_dic.counts k) ∧
    (processRecord RO LO W st rec).writes = st.writes ++ [left_type ++ "_" ++ right_type] := by
  simp only [processRecord, hc, hw]
  simp +contextual [Dict.increment]

/-- Witness for C2: concrete classifiers and a successful writer applied to a
20-base record, against the freshly initialized state. -/
theorem C2_witness :
    (processRecord RO0 LO0 Wok (initState ["ref1"]) rec0).right_dic.counts 2
        = (initState ["ref1"]).right_dic.counts 2 + 1 ∧
    (processRecord RO0 LO0 Wok (initState ["ref1"]) rec0).left_dic.counts 3
        = (initState ["ref1"]).left_dic.counts 3 + 1 ∧
    (processRecord RO0 LO0 Wok (initState ["ref1"]) rec0).type_dic.counts ("L5" ++ "_" ++ "R3")
        = (initState ["ref1"]).type_dic.counts ("L5" ++ "_" ++ "R3") + 1 ∧
    (processRecord RO0 LO0 Wok (initState ["ref1"]) rec0).read_len_dic.counts 20
        = (initState ["ref1"]).read_len_dic.counts 20 + 1 ∧
    (processRecord RO0 LO0 Wok (initState ["ref1"]) rec0).refs_read_dic.counts "ref1"
        = (initState ["ref1"]).refs_read_dic.counts "ref1" + 1 ∧
    (processRecord RO0 LO0 Wok (initState ["ref1"]) rec0).writes
        = (initState ["ref1"]).writes ++ ["L5" ++ "_" ++ "R3"] := by
  obtain ⟨h1, _, h2, _, h3, _, h4, _, h5, _, h6⟩ :=
    C2_classified_record_increments_each_table_once RO0 LO0 Wok
      (initState ["ref1"]) rec0 2 3 "R3" "L5" rfl rfl
  exact ⟨h1, h2, h3, h4, h5, h6⟩

/-- C3, amended: an exception during left or right overhang classification
(or a null CIGAR / filtered record) skips the record atomically — the state,
hence every table, is exactly unchanged.  But the five increments precede the
partition write in the loop body, so an exception raised by the write does
not roll them back: the record is then absent from the partition output yet
counted once in every table. -/
theorem C3_classification_failure_skips_atomically
    (RO LO : Record → Option (Nat × String))
    (W : Record → String → String → Option Unit) (st : State) (rec : Record) :
    (classifyRecord RO LO rec = none → processRecord RO LO W st rec = st) ∧
    (∀ right left : Nat, ∀ right_type left_type : String,
      classifyRecord RO LO rec = some (right, right_type, left, left_type) →
      W rec left_type right_type = none →
      (processRecord RO LO W st rec).writes = st.writes ∧
      (processRecord RO LO W st rec).right_dic.counts right
          = st.right_dic.counts right + 1 ∧
      (processRecord RO LO W st rec).left_dic.counts left
          = st.left_dic.counts left + 1 ∧
      (processRecord RO LO W st rec).type_dic.counts (left_type ++ "_" ++ right_type)
          = st.type_dic.counts (left_type ++ "_" ++ right_type) + 1 ∧
      (processRecord RO LO W st rec).read_len_dic.counts rec.query_length
          = st.read_len_dic.counts rec.query_length + 1 ∧
      (processRecord RO LO W st rec).refs_read_dic.counts rec.reference_name
          = st.refs_read_dic.counts rec.reference_name + 1) := by
  constructor
  · intro hc
    simp only [processRecord, hc]
  · intro right left right_type left_type hc hw
    simp only [processRecord, hc, hw]
    simp +contextual [Dict.increment]

/-- Witness for C3's amended statement: a failing classifier leaves the fresh
state untouched, and a failing writer after successful classification leaves
the write list empty while the read-length count was still incremented. -/
theorem C3_witness :
    processRecord ROfail LO0 Wok (initState ["ref1"]) rec0 = initState ["ref1"] ∧
    (processRecord RO0 LO0 Wfail (initState ["ref1"]) rec0).writes
        = (initState ["ref1"]).writes ∧
    (processRecord RO0 LO0 Wfail (initState ["ref1"]) rec0).read_len_dic.counts 20
        = (initState ["ref1"]).read_len_dic.counts 20 + 1 := by
  refine ⟨(C3_classification_failure_skips_atomically ROfail LO0 Wok
            (initState ["ref1"]) rec0).1 rfl, ?_, ?_⟩
  · exact ((C3_classification_failure_skips_atomically RO0 LO0 Wfail
      (initState ["ref1"]) rec0).2 2 3 "R3" "L5" rfl rfl).1
  · exact (((C3_classification_failure_skips_atomically RO0 LO0 Wfail
      (initState ["ref1"]) rec0).2 2 3 "R3" "L5" rfl rfl).2.2.2.2).1

/-- Counterexample to C3 as stated: the claim says any exception while
processing a record — including one raised by the per-type partition write —
leaves all tables unchanged.  Here the write raises (`Wfail` returns `none`,
so no partition write happens), yet the read-length table went from count 0
to count 1 for the record's query length: the skip is not atomic. -/
theorem C3_counterexample :
    Wfail rec0 "L5" "R3" = none ∧
    (initState ["ref1"]).read_len_dic.counts 20 = 0 ∧
    (processRecord RO0 LO0 Wfail (initState ["ref1"]) rec0).read_len_dic.counts 20 = 1 ∧
    (processRecord RO0 LO0 Wfail (initState ["ref1"]) rec0).writes = [] := by
  exact ⟨rfl, rfl, rfl, rfl⟩

/-- C4: with zero classified records the overhang CSV holds no data rows, so
the histogram stage iterates over an empty key list: the normalization loop
body never runs, hence no division by the zero totals occurs (`histStage`
succeeds), and the spec-modelled reporter renders an explicit no-data output
instead of raising. -/
theorem C4_empty_table_reported_gracefully :
    histStage [] = some ([], []) ∧ print_hist [] [] = ["No data"] :=
  ⟨rfl, rfl⟩

/-- Normalization never divides by zero when the total is nonzero: it maps
each count `d` to `100 * d / tot`. -/
theorem normalize_eq_map (dens : List Nat) (tot : Nat) (h : tot ≠ 0) :
    normalize dens tot = some (dens.map (fun (d : Nat) => (100 * (d : ℚ)) / (tot : ℚ))) := by
  induction dens with
  | nil => rfl
  | cons d rest ih => simp [normalize, h, ih]

/-- Summing the normalized values factors through the sum of the counts. -/
theorem sum_map_normalized (l : List Nat) (t : ℚ) :
    (l.map (fun (d : Nat) => (100 * (d : ℚ)) / t)).sum = 100 * ((l.sum : Nat) : ℚ) / t := by
  induction l with
  | nil => simp
  | cons d rest ih =>
    simp only [List.map_cons, List.sum_cons, ih, Nat.cast_add]
    rw [div_add_div_same]
    ring

/-- C5: for a table of counts with positive total, the normalization loop
(lines 165-167) succeeds, replaces each count `c` by `100 * c / total` with
`total` the sum of the counts, and the resulting percentages sum to exactly
100 over the rationals. -/
theorem C5_percentages_sum_to_100 (dens : List Nat) (h : 0 < dens.sum) :
    normalize dens dens.sum
        = some (dens.map (fun (d : Nat) => (100 * (d : ℚ)) / ((dens.sum : Nat) : ℚ))) ∧
    (dens.map (fun (d : Nat) => (100 * (d : ℚ)) / ((dens.sum : Nat) : ℚ))).sum = 100 := by
  have ht : dens.sum ≠ 0 := h.ne'
  refine ⟨normalize_eq_map dens dens.sum ht, ?_⟩
  rw [sum_map_normalized, mul_div_assoc,
    div_self (Nat.cast_ne_zero.mpr ht), mul_one]

/-- Witness for C5 at the concrete table `[1, 3]`: total 4, percentages
`[25, 75]` summing to 100. -/
theorem C5_witness :
    normalize [1, 3] (([1, 3] : List Nat).sum)
        = some (([1, 3] : List Nat).map
            (fun (d : Nat) => (100 * (d : ℚ)) / (((([1, 3] : List Nat).sum) : Nat) : ℚ))) ∧
    (([1, 3] : List Nat).map
        (fun (d : Nat) => (100 * (d : ℚ)) / (((([1, 3] : List Nat).sum) : Nat) : ℚ))).sum = 100 :=
  C5_percentages_sum_to_100 [1, 3] (by decide)

/-- Prepending `a` unmapped positions adds `a` to the leading-unmapped count. -/
theorem leadingUnmapped_replicate_append (a : Nat) (l : List (Option Nat)) :
    leadingUnmapped (List.replicate a none ++ l) = a + leadingUnmapped l := by
  induction a with
  | zero => simp
  | succ n ih =>
    rw [List.replicate_succ, List.cons_append]
    show leadingUnmapped (List.replicate n none ++ l) + 1 = n + 1 + leadingUnmapped l
    rw [ih]
    omega

/-- A position array of the canonical no-indel shape (a block of unmapped
positions, a nonempty mapped block, a block of unmapped positions) is not
entirely unmapped. -/
theorem shape_not_all_none (a b p : Nat) (ps : List Nat) :
    (List.replicate a (none : Option Nat) ++ (p :: ps).map some
      ++ List.replicate b none).all Option.isNone = false := by
  simp [List.all_append]

/-- On the canonical no-indel shape, the matched length is the size of the
mapped block. -/
theorem matched_length_shape (a b : Nat) (ps : List Nat) :
    matched_length (List.replicate a (none : Option Nat) ++ ps.map some
      ++ List.replicate b none) = ps.length := by
  simp [matched_length, List.filter_append, List.filter_replicate]
  rw [List.filter_eq_self.mpr] <;> simp

/-- C6: for a record whose reference-position array has the shape produced by
an indel-free alignment — `a` leading unmapped bases, a nonempty contiguous
mapped block, `b` trailing unmapped bases — and one entry per query base,
classification succeeds on both ends, the left overhang length is `a`, the
right overhang length is `b` (both non-negative by construction, being
naturals), and left + right + matched length equals the query length. -/
theorem C6_length_conservation (rec : Record) (a b : Nat) (ps : List Nat)
    (hps : ps ≠ [])
    (hshape : rec.ref_pos = List.replicate a none ++ ps.map some
      ++ List.replicate b none)
    (hlen : rec.ref_pos.length = rec.query_length) :
    left_overhang rec.ref_pos = some (a, if a = 0 then "flush" else "overhang") ∧
    right_overhang rec.ref_pos = some (b, if b = 0 then "flush" else "overhang") ∧
    a + b + matched_length rec.ref_pos = rec.query_length := by
  obtain ⟨p, ps', rfl⟩ := List.exists_cons_of_ne_nil hps
  have hleft : leadingUnmapped rec.ref_pos = a := by
    rw [hshape, List.append_assoc, leadingUnmapped_replicate_append]
    simp [leadingUnmapped]
  have hrev : rec.ref_pos.reverse
      = List.replicate b none ++ (p :: ps').reverse.map some
        ++ List.replicate a none := by
    rw [hshape]
    simp [List.reverse_append, List.map_reverse]
  have hright : leadingUnmapped rec.ref_pos.reverse = b := by
    obtain ⟨q, qs, hq⟩ :
        ∃ q qs, (p :: ps').reverse = q :: qs := by
      rcases h : (p :: ps').reverse with _ | ⟨q, qs⟩
      · exact absurd (List.reverse_eq_nil_iff.mp h) (List.cons_ne_nil p ps')
      · exact ⟨q, qs, rfl⟩
    rw [hrev, hq, List.append_assoc, leadingUnmapped_replicate_append]
    simp [leadingUnmapped]
  have hnotall : rec.ref_pos.all Option.isNone = false := by
    rw [hshape]; exact shape_not_all_none a b p ps'
  refine ⟨?_, ?_, ?_⟩
  · rw [left_overhang, hnotall]; simp [hleft]
  · rw [right_overhang, hnotall]; simp [hright]
  · have hm : matched_length rec.ref_pos = (p :: ps').length := by
      rw [hshape]; exact matched_length_shape a b (p :: ps')
    have hl : rec.ref_pos.length = a + (p :: ps').length + b := by
      rw [hshape]; simp; omega
    rw [hm]; omega

/-- Witness for C6 at the spec's scenario: a read of length 20 with a 3-base
unmapped 5' tail, a 15-base mapped block and a 2-base unmapped 3' tail yields
left overhang 3, right overhang 2 and matched length 15. -/
theorem C6_witness :
    left_overhang (Record.mk (some "20M") 20 "ref1"
        (List.replicate 3 none ++ (List.range 15).map some
          ++ List.replicate 2 none)).ref_pos
      = some (3, if 3 = 0 then "flush" else "overhang") ∧
    right_overhang (Record.mk (some "20M") 20 "ref1"
        (List.replicate 3 none ++ (List.range 15).map some
          ++ List.replicate 2 none)).ref_pos
      = some (2, if 2 = 0 then "flush" else "overhang") ∧
    3 + 2 + matched_length (Record.mk (some "20M") 20 "ref1"
        (List.replicate 3 none ++ (List.range 15).map some
          ++ List.replicate 2 none)).ref_pos
      = (Record.mk (some "20M") 20 "ref1"
        (List.replicate 3 none ++ (List.range 15).map some
          ++ List.replicate 2 none)).query_length :=
  C6_length_conservation _ 3 2 (List.range 15) (by decide) rfl (by decide)

/-- C7: the bowtie2 invocation carries exactly the claimed parameters: seed
length 10 (`-L 10`), local alignment (`--local`), reverse-strand-only
matching (`--nofw`), match bonus 3 (`--ma 3`), mismatch penalty equal to the
maximum read length (`--mp max,max`), and a minimum score of
`L,3*minimum,0` when the `-m` option keeps its default `-1`, or `L,3*m,0`
for a user-supplied `m`. -/
theorem C7_bowtie2_parameters (ref_base reads sam_file : String)
    (maximum user_min minimum : Int) :
    (bowtie2Command ref_base reads sam_file maximum
        (effective_min_score user_min minimum))[8]? = some "-L" ∧
    (bowtie2Command ref_base reads sam_file maximum
        (effective_min_score user_min minimum))[9]? = some "10" ∧
    (bowtie2Command ref_base reads sam_file maximum
        (effective_min_score user_min minimum))[11]? = some "--nofw" ∧
    (bowtie2Command ref_base reads sam_file maximum
        (effective_min_score user_min minimum))[12]? = some "--local" ∧
    (bowtie2Command ref_base reads sam_file maximum
        (effective_min_score user_min minimum))[13]? = some "--ma" ∧
    (bowtie2Command ref_base reads sam_file maximum
        (effective_min_score user_min minimum))[14]? = some "3" ∧
    (bowtie2Command ref_base reads sam_file maximum
        (effective_min_score user_min minimum))[15]? = some "--mp" ∧
    (bowtie2Command ref_base reads sam_file maximum
        (effective_min_score user_min minimum))[16]?
      = some (toString maximum ++ "," ++ toString maximum) ∧
    (bowtie2Command ref_base reads sam_file maximum
        (effective_min_score user_min minimum))[17]? = some "--score-min" ∧
    (bowtie2Command ref_base reads sam_file maximum
        (effective_min_score user_min minimum))[18]?
      = some ("L," ++ toString (effective_min_score user_min minimum) ++ ",0") ∧
    (user_min = -1 → effective_min_score user_min minimum = 3 * minimum) ∧
    (user_min ≠ -1 → effective_min_score user_min minimum = 3 * user_min) := by
  refine ⟨rfl, rfl, rfl, rfl, rfl, rfl, rfl, rfl, rfl, rfl, ?_, ?_⟩ <;>
    intro h <;> simp [effective_min_score, h]

/-- Witness for C7: with `-m 5` the minimum score is `3 * 5`; with the
default `-1` and shortest read length 17 it is `3 * 17`; the score-min
argument string carries the scaled value. -/
theorem C7_witness :
    (bowtie2Command "ref" "reads.fasta" "out.sam" 30
        (effective_min_score 5 17))[18]?
      = some ("L," ++ toString (effective_min_score 5 17) ++ ",0") ∧
    effective_min_score 5 17 = 3 * 5 ∧
    effective_min_score (-1) 17 = 3 * 17 := by
  obtain ⟨_, _, _, _, _, _, _, _, _, h18, _, hovr⟩ :=
    C7_bowtie2_parameters "ref" "reads.fasta" "out.sam" 30 5 17
  obtain ⟨_, _, _, _, _, _, _, _, _, _, hdef, _⟩ :=
    C7_bowtie2_parameters "ref" "reads.fasta" "out.sam" 30 (-1) 17
  exact ⟨h18, hovr (by decide), hdef rfl⟩

/-- C8: the return code of the bowtie2 subprocess is bound on line 109 and
never read again, so two runs that differ only in the aligner's exit status
produce identical downstream states: same frequency tables, same partition
writes. -/
theorem C8_exit_status_never_inspected (code1 code2 : Int)
    (references : List String) (records : List Record)
    (RO LO : Record → Option (Nat × String))
    (W : Record → String → String → Option Unit) :
    pipelineAfterAlign code1 references records RO LO W
      = pipelineAfterAlign code2 references records RO LO W := rfl

/-- C9: with the make-headers-unique flag set, lines 85-86 assign
`reads = make_unique(reads)` and then `reads = make_unique(ref)`, so the
final value of `reads` is the uniquified reference file — independent of the
original reads path — and it is this value that reaches the aligner's `-U`
read argument (and the read-length computation). -/
theorem C9_make_unique_overwrites_reads (reads reads2 ref : String)
    (mk : String → String) (ref_base sam_file : String)
    (maximum min_score : Int) :
    readsAfterUnique true reads ref mk = mk ref ∧
    readsAfterUnique true reads ref mk = readsAfterUnique true reads2 ref mk ∧
    (bowtie2Command ref_base (readsAfterUnique true reads ref mk) sam_file
        maximum min_score)[4]? = some (mk ref) :=
  ⟨rfl, rfl, rfl⟩

/-- Membership in the key list after an increment. -/
theorem Dict.mem_increment_keys {K : Type} [DecidableEq K] (d : Dict K)
    (m k : K) : k ∈ (d.increment m).keys ↔ k ∈ d.keys ∨ k = m := by
  by_cases h : m ∈ d.keys
  · simp only [Dict.increment, h, if_pos]
    exact ⟨Or.inl, fun hk => hk.elim id (fun e => e ▸ h)⟩
  · simp [Dict.increment, h, List.mem_cons, or_comm]

/-- Membership in the key list after an assignment. -/
theorem Dict.mem_set_keys {K : Type} [DecidableEq K] (d : Dict K)
    (m k : K) (v : Nat) : k ∈ (d.set m v).keys ↔ k ∈ d.keys ∨ k = m := by
  by_cases h : m ∈ d.keys
  · simp only [Dict.set, h, if_pos]
    exact ⟨Or.inl, fun hk => hk.elim id (fun e => e ▸ h)⟩
  · simp [Dict.set, h, List.mem_cons, or_comm]

/-- The loop body can only grow the reference-hit key list, and only adds a
key to one of the other four tables when the record classified successfully
and the key is the corresponding component of its classification. -/
theorem processRecord_keys (RO LO : Record → Option (Nat × String))
    (W : Record → String → String → Option Unit) (st : State) (rec : Record) :
    (∀ k, k ∈ st.refs_read_dic.keys →
        k ∈ (processRecord RO LO W st rec).refs_read_dic.keys) ∧
    (∀ k, k ∈ (processRecord RO LO W st rec).right_dic.keys →
        k ∈ st.right_dic.keys ∨
          ∃ rt l lt, classifyRecord RO LO rec = some (k, rt, l, lt)) ∧
    (∀ k, k ∈ (processRecord RO LO W st rec).left_dic.keys →
        k ∈ st.left_dic.keys ∨
          ∃ r rt lt, classifyRecord RO LO rec = some (r, rt, k, lt)) ∧
    (∀ k, k ∈ (processRecord RO LO W st rec).type_dic.keys →
        k ∈ st.type_dic.keys ∨
          ∃ r rt l lt, classifyRecord RO LO rec = some (r, rt, l, lt) ∧
            k = lt ++ "_" ++ rt) ∧
    (∀ k, k ∈ (processRecord RO LO W st rec).read_len_dic.keys →
        k ∈ st.read_len_dic.keys ∨
          ((∃ res, classifyRecord RO LO rec = some res) ∧
            k = rec.query_length)) := by
  cases hc : classifyRecord RO LO rec with
  | none => simp [processRecord, hc]
  | some res =>
    obtain ⟨right, right_type, left, left_type⟩ := res
    have e1 : (processRecord RO LO W st rec).right_dic
        = st.right_dic.increment right := by
      cases hW : W rec left_type right_type <;> simp [processRecord, hc, hW]
    have e2 : (processRecord RO LO W st rec).left_dic
        = st.left_dic.increment left := by
      cases hW : W rec left_type right_type <;> simp [processRecord, hc, hW]
    have e3 : (processRecord RO LO W st rec).type_dic
        = st.type_dic.increment (left_type ++ "_" ++ right_type) := by
      cases hW : W rec left_type right_type <;> simp [processRecord, hc, hW]
    have e4 : (processRecord RO LO W st rec).read_len_dic
        = st.read_len_dic.increment rec.query_length := by
      cases hW : W rec left_type right_type <;> simp [processRecord, hc, hW]
    have e5 : (processRecord RO LO W st rec).refs_read_dic
        = st.refs_read_dic.increment rec.reference_name := by
      cases hW : W rec left_type right_type <;> simp [processRecord, hc, hW]
    refine ⟨?_, ?_, ?_, ?_, ?_⟩
    · intro k hk
      rw [e5, Dict.mem_increment_keys]
      exact Or.inl hk
    · intro k hk
      rw [e1, Dict.mem_increment_keys] at hk
      rcases hk with h | rfl
      · exact Or.inl h
      · exact Or.inr ⟨right_type, left, left_type, rfl⟩
    · intro k hk
      rw [e2, Dict.mem_increment_keys] at hk
      rcases hk with h | rfl
      · exact Or.inl h
      · exact Or.inr ⟨right, right_type, left_type, rfl⟩
    · intro k hk
      rw [e3, Dict.mem_increment_keys] at hk
      rcases hk with h | rfl
      · exact Or.inl h
      · exact Or.inr ⟨right, right_type, left, left_type, rfl, rfl⟩
    · intro k hk
      rw [e4, Dict.mem_increment_keys] at hk
      rcases hk with h | rfl
      · exact Or.inl h
      · exact Or.inr ⟨⟨_, rfl⟩, rfl⟩

/-- The invariant of the whole record loop: seeded reference-hit keys are
never removed, and every key of the other four tables either predates the
loop or is the corresponding component of some record's successful
classification. -/
theorem processAll_keys (RO LO : Record → Option (Nat × String))
    (W : Record → String → String → Option Unit) :
    ∀ (records : List Record) (st : State),
    (∀ k, k ∈ st.refs_read_dic.keys →
        k ∈ (processAll RO LO W st records).refs_read_dic.keys) ∧
    (∀ k, k ∈ (processAll RO LO W st records).right_dic.keys →
        k ∈ st.right_dic.keys ∨
          ∃ rec ∈ records, ∃ rt l lt,
            classifyRecord RO LO rec = some (k, rt, l, lt)) ∧
    (∀ k, k ∈ (processAll RO LO W st records).left_dic.keys →
        k ∈ st.left_dic.keys ∨
          ∃ rec ∈ records, ∃ r rt lt,
            classifyRecord RO LO rec = some (r, rt, k, lt)) ∧
    (∀ k, k ∈ (processAll RO LO W st records).type_dic.keys →
        k ∈ st.type_dic.keys ∨
          ∃ rec ∈ records, ∃ r rt l lt,
            classifyRecord RO LO rec = some (r, rt, l, lt) ∧
              k = lt ++ "_" ++ rt) ∧
    (∀ k, k ∈ (processAll RO LO W st records).read_len_dic.keys →
        k ∈ st.read_len_dic.keys ∨
          ∃ rec ∈ records,
            (∃ res, classifyRecord RO LO rec = some res) ∧
              k = rec.query_length) := by
  intro records
  induction records with
  | nil => intro st; simp [processAll]
  | cons r rs ih =>
    intro st
    have hstep : processAll RO LO W st (r :: rs)
        = processAll RO LO W (processRecord RO LO W st r) rs := rfl
    obtain ⟨p1, p2, p3, p4, p5⟩ := processRecord_keys RO LO W st r
    obtain ⟨q1, q2, q3, q4, q5⟩ := ih (processRecord RO LO W st r)
    rw [hstep]
    refine ⟨fun k hk => q1 k (p1 k hk), ?_, ?_, ?_, ?_⟩
    · intro k hk
      rcases q2 k hk with h | ⟨rec, hrec, h⟩
      · rcases p2 k h with h' | ⟨rt, l, lt, h'⟩
        · exact Or.inl h'
        · exact Or.inr ⟨r, List.mem_cons_self r rs, rt, l, lt, h'⟩
      · exact Or.inr ⟨rec, List.mem_cons_of_mem r hrec, h⟩
    · intro k hk
      rcases q3 k hk with h | ⟨rec, hrec, h⟩
      · rcases p3 k h with h' | ⟨ri, rt, lt, h'⟩
        · exact Or.inl h'
        · exact Or.inr ⟨r, List.mem_cons_self r rs, ri, rt, lt, h'⟩
      · exact Or.inr ⟨rec, List.mem_cons_of_mem r hrec, h⟩
    · intro k hk
      rcases q4 k hk with h | ⟨rec, hrec, h⟩
      · rcases p4 k h with h' | ⟨ri, rt, l, lt, h'⟩
        · exact Or.inl h'
        · exact Or.inr ⟨r, List.mem_cons_self r rs, ri, rt, l, lt, h'⟩
      · exact Or.inr ⟨rec, List.mem_cons_of_mem r hrec, h⟩
    · intro k hk
      rcases q5 k hk with h | ⟨rec, hrec, h⟩
      · rcases p5 k h with h' | h'
        · exact Or.inl h'
        · exact Or.inr ⟨r, List.mem_cons_self r rs, h'⟩
      · exact Or.inr ⟨rec, List.mem_cons_of_mem r hrec, h⟩

/-- Every reference name of the header is a key of the seeded table. -/
theorem initState_refs_mem (references : List String) (name : String)
    (h : name ∈ references) :
    name ∈ (initState references).refs_read_dic.keys := by
  suffices hgen : ∀ (refs : List String) (d : Dict String),
      name ∈ refs ∨ name ∈ d.keys →
      name ∈ (refs.foldl (fun d n => d.set n 0) d).keys by
    exact hgen references Dict.empty (Or.inl h)
  intro refs
  induction refs with
  | nil => intro d hd; exact hd.resolve_left (by simp)
  | cons r rs ih =>
    intro d hd
    refine ih (d.set r 0) ?_
    rcases hd with hd | hd
    · rcases List.mem_cons.mp hd with rfl | hd
      · exact Or.inr ((Dict.mem_set_keys d name name 0).mpr (Or.inr rfl))
      · exact Or.inl hd
    · exact Or.inr ((Dict.mem_set_keys d r name 0).mpr (Or.inl hd))

/-- Every count of the seeded reference-hit table is 0. -/
theorem initState_refs_count_zero (references : List String) (name : String) :
    (initState references).refs_read_dic.counts name = 0 := by
  suffices hgen : ∀ (refs : List String) (d : Dict String),
      (∀ m, d.counts m = 0) →
      ∀ m, (refs.foldl (fun d n => d.set n 0) d).counts m = 0 by
    exact hgen references Dict.empty (fun _ => rfl) name
  intro refs
  induction refs with
  | nil => intro d hd m; exact hd m
  | cons r rs ih =>
    intro d hd m
    refine ih (d.set r 0) (fun m' => ?_) m
    simp only [Dict.set]
    split <;> simp [hd]

/-- C10: before the loop, the reference-hit table holds an entry of count 0
for every reference name of the alignment header; those keys survive the
whole loop (so the reference-hits CSV gets a row for every reference, the
zero-count ones included), while the overhang-length, composite-type and
read-length tables only ever hold keys produced by the successful
classification of some processed record. -/
theorem C10_refs_seeded_others_observed (references : List String)
    (records : List Record) (RO LO : Record → Option (Nat × String))
    (W : Record → String → String → Option Unit) :
    (∀ name ∈ references,
        (initState references).refs_read_dic.counts name = 0 ∧
        name ∈ (initState references).refs_read_dic.keys ∧
        name ∈ (processAll RO LO W (initState references)
            records).refs_read_dic.keys) ∧
    (∀ k ∈ (processAll RO LO W (initState references) records).right_dic.keys,
        ∃ rec ∈ records, ∃ rt l lt,
          classifyRecord RO LO rec = some (k, rt, l, lt)) ∧
    (∀ k ∈ (processAll RO LO W (initState references) records).left_dic.keys,
        ∃ rec ∈ records, ∃ r rt lt,
          classifyRecord RO LO rec = some (r, rt, k, lt)) ∧
    (∀ k ∈ (processAll RO LO W (initState references) records).type_dic.keys,
        ∃ rec ∈ records, ∃ r rt l lt,
          classifyRecord RO LO rec = some (r, rt, l, lt) ∧
            k = lt ++ "_" ++ rt) ∧
    (∀ k ∈ (processAll RO LO W (initState references) records).read_len_dic.keys,
        ∃ rec ∈ records,
          (∃ res, classifyRecord RO LO rec = some res) ∧
            k = rec.query_length) := by
  obtain ⟨q1, q2, q3, q4, q5⟩ := processAll_keys RO LO W records (initState references)
  have hempty : ∀ k : Nat, k ∉ (Dict.empty (K := Nat)).keys := by
    intro k; simp [Dict.empty]
  have hemptyS : ∀ k : String, k ∉ (Dict.empty (K := String)).keys := by
    intro k; simp [Dict.empty]
  refine ⟨?_, ?_, ?_, ?_, ?_⟩
  · intro name hname
    have hmem := initState_refs_mem references name hname
    exact ⟨initState_refs_count_zero references name, hmem, q1 name hmem⟩
  · intro k hk
    exact (q2 k hk).resolve_left (hempty k)
  · intro k hk
    exact (q3 k hk).resolve_left (hempty k)
  · intro k hk
    exact (q4 k hk).resolve_left (hemptyS k)
  · intro k hk
    exact (q5 k hk).resolve_left (hempty k)

/-- Witness for C10: with header references `refA`, `refB` and one classified
record aligned to `ref1`, `refB` starts at count 0 and is still a key of the
reference-hit table after the loop, although no record aligned to it. -/
theorem C10_witness :
    (initState ["refA", "refB"]).refs_read_dic.counts "refB" = 0 ∧
    "refB" ∈ (processAll RO0 LO0 Wok
        (initState ["refA", "refB"]) [rec0]).refs_read_dic.keys := by
  obtain ⟨h, _⟩ :=
    C10_refs_seeded_others_observed ["refA", "refB"] [rec0] RO0 LO0 Wok
  obtain ⟨h1, _, h3⟩ := h "refB" (by simp)
  exact ⟨h1, h3⟩

end StepRNA
